import Mathlib

/-!
Verification development for a Notion → Jira task-migration pipeline.

The Python sources are embedded shallowly:
  * `src/upload_to_jira.py`  — date-cutoff filter, label/estimate mapping,
    task mapping and the per-record migration write sequence;
  * `src/extract_from_notion.py` — cursor pagination, block flattening,
    description extraction and the property normalizer.

Python strings are modelled as `List Char` (with `String` wrappers at the
edges), Python `dict`s as association lists, `None` as `Option`, and
exceptions as `Except` / `Option` results.
-/

namespace NotionJira

/-! ### Python string primitives -/

/-- Python `str.strip()` whitespace class (ASCII portion): space, \t, \n, \r, \f, \v. -/
def isPySpace (c : Char) : Bool :=
  c = ' ' || c = '\t' || c = '\n' || c = '\r' || c = '\x0c' || c = '\x0b'

/-- Drop trailing characters satisfying `p` (strip from the right). -/
def dropTrailing (p : Char → Bool) (l : List Char) : List Char :=
  (l.reverse.dropWhile p).reverse

/-- Python `s.strip()` on a character list. -/
def stripL (l : List Char) : List Char :=
  dropTrailing isPySpace (l.dropWhile isPySpace)

/-- Python `s.strip()` on a `String`. -/
def stripS (s : String) : String := ⟨stripL s.data⟩

/-- ASCII lower-casing of one character, as Python `str.lower()` acts on
the ASCII range the sources use. -/
def pyToLower (c : Char) : Char :=
  if 'A' ≤ c ∧ c ≤ 'Z' then Char.ofNat (c.toNat + 32) else c

/-- Python `s.lower()` (ASCII case folding, as used by the sources). -/
def lowerL (l : List Char) : List Char := l.map pyToLower

/-- Python `s.lower()` on a `String`. -/
def lowerS (s : String) : String := ⟨lowerL s.data⟩

/-- Python `x or ""` over an optional string (Python truthiness on `None`). -/
def orEmpty : Option String → String
  | none => ""
  | some s => s

/-- Python truthiness of an optional string: `None` and `""` are falsy. -/
def optTruthy : Option String → Bool
  | none => false
  | some s => s ≠ ""

/-- Decimal digit test (`\d`, restricted to ASCII as the data uses). -/
def isDigit (c : Char) : Bool := '0' ≤ c && c ≤ '9'

/-- Numeric value of a decimal digit list (most significant first). -/
def natOfDigits (l : List Char) : Nat :=
  l.foldl (fun acc c => acc * 10 + (c.toNat - '0'.toNat)) 0

/-! ### `_parse_iso_date_start` and the date cutoff (src/upload_to_jira.py) -/

/-- A calendar date as `datetime.date` holds it. -/
structure PyDate where
  year : Nat
  month : Nat
  day : Nat
deriving DecidableEq, Repr

/-- Comparison of `date` values: lexicographic on (year, month, day). -/
def dateLt (a b : PyDate) : Bool :=
  a.year < b.year ||
  (a.year = b.year && (a.month < b.month ||
    (a.month = b.month && a.day < b.day)))

/-- Gregorian leap-year test, as `datetime` implements it. -/
def isLeap (y : Nat) : Bool :=
  y % 4 = 0 && (y % 100 ≠ 0 || y % 400 = 0)

/-- Days in a month, as `datetime` validates. -/
def daysInMonth (y m : Nat) : Nat :=
  if m = 2 then (if isLeap y then 29 else 28)
  else if m = 4 || m = 6 || m = 9 || m = 11 then 30
  else 31

/-- Embeds `date.fromisoformat` on an exact `YYYY-MM-DD` candidate: four digit year,
two digit month and day, dashes in place, and a valid calendar date
(`datetime` requires 1 ≤ year, 1 ≤ month ≤ 12, 1 ≤ day ≤ days in month). -/
def dateFromIso (l : List Char) : Option PyDate :=
  match l with
  | [y1, y2, y3, y4, s1, m1, m2, s2, d1, d2] =>
    if isDigit y1 && isDigit y2 && isDigit y3 && isDigit y4 &&
       s1 = '-' && isDigit m1 && isDigit m2 &&
       s2 = '-' && isDigit d1 && isDigit d2 then
      let y := natOfDigits [y1, y2, y3, y4]
      let m := natOfDigits [m1, m2]
      let d := natOfDigits [d1, d2]
      if 1 ≤ y && 1 ≤ m && m ≤ 12 && 1 ≤ d && d ≤ daysInMonth y m then
        some ⟨y, m, d⟩
      else none
    else none
  | _ => none

/-- Prefix of `l` before the first occurrence of `".."`
(Python `s.split("..", 1)[0]`). -/
def takeUntilDotDot : List Char → List Char
  | [] => []
  | '.' :: '.' :: _ => []
  | c :: rest => c :: takeUntilDotDot rest

/-- Whether `l` contains `".."` (Python `".." in s`). -/
def hasDotDot : List Char → Bool
  | [] => false
  | '.' :: '.' :: _ => true
  | _ :: rest => hasDotDot rest

/-- Embeds `_parse_iso_date_start(value)` from `src/upload_to_jira.py`:
strip; empty → `None`; take the first component of a `start..end` range;
truncate to 10 characters (date portion of a timestamp); parse. -/
def parse_iso_date_start (value : Option String) : Option PyDate :=
  match value with
  | none => none
  | some v =>
    if v = "" then none
    else
      let s := stripL v.data
      if s = [] then none
      else
        let s := if hasDotDot s then stripL (takeUntilDotDot s) else s
        let s := s.take 10
        dateFromIso s

/-- The constant `CUTOFF = date.fromisoformat("2026-01-01")`. -/
def CUTOFF : PyDate := ⟨2026, 1, 1⟩

/-! ### `filter_tasks` (src/upload_to_jira.py)

A task record is a string-keyed dictionary of string values, as loaded from
the intermediate JSON file. -/

/-- One flat task record: an association list, first binding wins
(Python `dict.get`). -/
abbrev TaskDict : Type := List (String × String)

/-- Python `t.get(k)`. -/
def dictGet (t : TaskDict) (k : String) : Option String :=
  (List.find? (fun p => p.1 = k) t).map Prod.snd

/-- Embeds `filter_tasks(tasks)` from `src/upload_to_jira.py`: the accumulation loop,
written as structural recursion. -/
def filter_tasks : List TaskDict → List TaskDict
  | [] => []
  | t :: ts =>
    let status := stripS (orEmpty (dictGet t "Status"))
    if lowerS status ≠ "archived" then
      t :: filter_tasks ts
    else
      match parse_iso_date_start (dictGet t "Arkiveringsdato") with
      | some ark => if dateLt CUTOFF ark then t :: filter_tasks ts else filter_tasks ts
      | none => filter_tasks ts

/-- The keep-predicate the claim describes: non-archival records pass;
archival records pass iff the archival date parses and strictly exceeds
the cutoff. -/
def claimKeep (t : TaskDict) : Bool :=
  if lowerS (stripS (orEmpty (dictGet t "Status"))) ≠ "archived" then true
  else
    match parse_iso_date_start (dictGet t "Arkiveringsdato") with
    | some ark => dateLt CUTOFF ark
    | none => false

end NotionJira

namespace NotionJira

example : parse_iso_date_start (some "2026-02-01") = some ⟨2026, 2, 1⟩ := by decide
example : parse_iso_date_start (some "2025-12-31..2026-01-05") = some ⟨2025, 12, 31⟩ := by decide
example : parse_iso_date_start (some "2026-02-01T10:00:00+02:00") = some ⟨2026, 2, 1⟩ := by decide
example : parse_iso_date_start (some "not a date") = none := by decide
example : parse_iso_date_start (some "  2026-02-01  ") = some ⟨2026, 2, 1⟩ := by decide
example : parse_iso_date_start (some "2026-13-01") = none := by decide
example : filter_tasks [[("Status", "Archived"), ("Arkiveringsdato", "2026-02-01")],
                        [("Status", "Archived"), ("Arkiveringsdato", "2025-12-31")],
                        [("Status", "Done")]] =
          [[("Status", "Archived"), ("Arkiveringsdato", "2026-02-01")],
           [("Status", "Done")]] := by decide

/-- C1: `filter_tasks` keeps every record whose trimmed, case-folded
Status is not `"archived"`; an archived record is kept iff its
`Arkiveringsdato` parses (bare date, first component of a range, or the
date portion of a timestamp) to a date strictly greater than 2026-01-01,
and is dropped when the date is absent or unparseable. -/
theorem C1_filter_tasks_cutoff :
    (∀ tasks : List TaskDict, filter_tasks tasks = tasks.filter claimKeep)
    ∧ parse_iso_date_start (some "2026-02-01") = some ⟨2026, 2, 1⟩
    ∧ parse_iso_date_start (some "2025-12-31..2026-01-05") = some ⟨2025, 12, 31⟩
    ∧ parse_iso_date_start (some "2026-02-01T10:00:00+02:00") = some ⟨2026, 2, 1⟩
    ∧ parse_iso_date_start (some "not a date") = none
    ∧ parse_iso_date_start none = none := by
  refine ⟨?_, by decide, by decide, by decide, by decide, by decide⟩
  intro tasks
  induction tasks with
  | nil => rfl
  | cons t ts ih =>
    rw [List.filter_cons]
    simp only [filter_tasks, claimKeep]
    split
    · simp [ih]
    · split
      · split <;> simp_all
      · simp [ih]

end NotionJira

namespace NotionJira

/-! ### Cursor pagination (src/extract_from_notion.py)

A mocked server is a list of page responses, served in order of request.
Each response carries `results`, `has_more` and `next_cursor` exactly as the
Notion API does; `next_cursor = none` models an absent key and `some ""` an
empty cursor (both falsy in Python). -/

structure NotionPage (α : Type) where
  results : List α
  has_more : Bool
  next_cursor : Option String

/-- Loop body of `paginate_query`: extend `results`, stop when
`has_more` is falsy, raise when `has_more` is truthy but the cursor is not,
else request the next page. An exhausted mock server is an error. -/
def paginate_query_go {α : Type} (acc : List α) :
    List (NotionPage α) → Except String (List α)
  | [] => Except.error "mock server exhausted"
  | p :: rest =>
    let acc := acc ++ p.results
    if !p.has_more then Except.ok acc
    else if !(optTruthy p.next_cursor) then
      Except.error "Notion returned has_more=true but next_cursor is missing."
    else paginate_query_go acc rest

/-- Embeds `paginate_query(...)` from `src/extract_from_notion.py`, over a mocked
sequence of responses. -/
def paginate_query {α : Type} (pages : List (NotionPage α)) : Except String (List α) :=
  paginate_query_go [] pages

/-- Loop body of `paginate_list_endpoint`: same contract, different call
(GET with params) and error message. -/
def paginate_list_endpoint_go {α : Type} (acc : List α) :
    List (NotionPage α) → Except String (List α)
  | [] => Except.error "mock server exhausted"
  | p :: rest =>
    let acc := acc ++ p.results
    if !p.has_more then Except.ok acc
    else if !(optTruthy p.next_cursor) then
      Except.error "Pagination error: has_more=true but next_cursor missing."
    else paginate_list_endpoint_go acc rest

/-- Embeds `paginate_list_endpoint(...)` from `src/extract_from_notion.py`. -/
def paginate_list_endpoint {α : Type} (pages : List (NotionPage α)) :
    Except String (List α) :=
  paginate_list_endpoint_go [] pages

/-- A response that lets the loop continue: more pages claimed and a truthy
cursor supplied. -/
def continuingPage {α : Type} (p : NotionPage α) : Prop :=
  p.has_more = true ∧ optTruthy p.next_cursor = true

/-- Accumulator lemma: over a run of continuing pages both loops just
accumulate results. -/
theorem paginate_go_append {α : Type} (front : List (NotionPage α))
    (h : ∀ p ∈ front, continuingPage p) (acc : List α) (tail : List (NotionPage α)) :
    paginate_query_go (acc ++ (front.map NotionPage.results).flatten) tail =
      paginate_query_go acc (front ++ tail)
    ∧ paginate_list_endpoint_go (acc ++ (front.map NotionPage.results).flatten) tail =
      paginate_list_endpoint_go acc (front ++ tail) := by
  induction front generalizing acc with
  | nil => simp
  | cons p front ih =>
    obtain ⟨h1, h2⟩ := h p (by simp)
    have ih' := ih (fun q hq => h q (by simp [hq])) (acc ++ p.results)
    constructor
    · rw [List.cons_append]
      simp only [paginate_query_go, h1, h2]
      simpa [List.append_assoc] using ih'.1
    · rw [List.cons_append]
      simp only [paginate_list_endpoint_go, h1, h2]
      simpa [List.append_assoc] using ih'.2

end NotionJira

namespace NotionJira

/-- C2: When every page before the last continues (has_more with a
cursor) and the last page carries `has_more=false`, both pagination loops
return the in-order concatenation of all pages' results; when some page
carries `has_more=true` without a usable cursor, both loops raise the
protocol-violation error after that page, regardless of any further pages
the server might have served. -/
theorem C2_pagination {α : Type} :
    (∀ (front : List (NotionPage α)) (last : NotionPage α),
        (∀ p ∈ front, continuingPage p) → last.has_more = false →
        paginate_query (front ++ [last]) =
          Except.ok (((front ++ [last]).map NotionPage.results).flatten)
        ∧ paginate_list_endpoint (front ++ [last]) =
          Except.ok (((front ++ [last]).map NotionPage.results).flatten))
    ∧ (∀ (front : List (NotionPage α)) (bad : NotionPage α)
        (rest : List (NotionPage α)),
        (∀ p ∈ front, continuingPage p) →
        bad.has_more = true → optTruthy bad.next_cursor = false →
        paginate_query (front ++ bad :: rest) =
          Except.error "Notion returned has_more=true but next_cursor is missing."
        ∧ paginate_list_endpoint (front ++ bad :: rest) =
          Except.error "Pagination error: has_more=true but next_cursor missing.") := by
  constructor
  · intro front last hf hl
    have h := paginate_go_append front hf [] [last]
    constructor
    · rw [paginate_query, ← h.1]
      simp [paginate_query_go, hl]
    · rw [paginate_list_endpoint, ← h.2]
      simp [paginate_list_endpoint_go, hl]
  · intro front bad rest hf hb hc
    have h := paginate_go_append front hf [] (bad :: rest)
    constructor
    · rw [paginate_query, ← h.1]
      simp [paginate_query_go, hb, hc]
    · rw [paginate_list_endpoint, ← h.2]
      simp [paginate_list_endpoint_go, hb, hc]

/-- Witness for C2 at a concrete two-page run and a concrete
cursor-missing run. -/
theorem C2_pagination_witness :
    paginate_query [⟨[1, 2], true, some "c"⟩, (⟨[3], false, none⟩ : NotionPage Nat)] =
      Except.ok [1, 2, 3]
    ∧ paginate_query [⟨[1], true, some "c"⟩, (⟨[2], true, none⟩ : NotionPage Nat),
        ⟨[99], false, none⟩] =
      Except.error "Notion returned has_more=true but next_cursor is missing." := by
  have hcont : ∀ p ∈ [(⟨[1, 2], true, some "c"⟩ : NotionPage Nat)], continuingPage p := by
    intro p hp
    rw [List.mem_singleton] at hp
    subst hp
    exact ⟨rfl, by decide⟩
  have hcont' : ∀ p ∈ [(⟨[1], true, some "c"⟩ : NotionPage Nat)], continuingPage p := by
    intro p hp
    rw [List.mem_singleton] at hp
    subst hp
    exact ⟨rfl, by decide⟩
  constructor
  · have h := ((C2_pagination (α := Nat)).1 [⟨[1, 2], true, some "c"⟩]
      ⟨[3], false, none⟩ hcont rfl).1
    simpa using h
  · have h := ((C2_pagination (α := Nat)).2 [⟨[1], true, some "c"⟩]
      ⟨[2], true, none⟩ [⟨[99], false, none⟩] hcont' rfl rfl).1
    simpa using h

end NotionJira

namespace NotionJira

/-! ### Label normalization (src/upload_to_jira.py) -/

/-- Characters kept by `re.sub(r"[^a-z0-9\-_]+", "", s)`. -/
def isAllowedLabelChar (c : Char) : Bool :=
  ('a' ≤ c && c ≤ 'z') || ('0' ≤ c && c ≤ '9') || c = '-' || c = '_'

/-- Embeds `re.sub(r"\s+", "-", s)`: each maximal whitespace run becomes one
hyphen; the flag records whether the previous character was in a run. -/
def collapseWsAux : Bool → List Char → List Char
  | _, [] => []
  | prevSpace, c :: rest =>
    if isPySpace c then
      if prevSpace then collapseWsAux true rest
      else '-' :: collapseWsAux true rest
    else c :: collapseWsAux false rest

def collapseWs (l : List Char) : List Char := collapseWsAux false l

/-- Embeds `normalize_label(s)` from `src/upload_to_jira.py` on character lists:
strip, lower, collapse whitespace runs to hyphens, drop disallowed
characters, truncate to 255. -/
def normalizeLabelL (l : List Char) : List Char :=
  ((collapseWs ((stripL l).map pyToLower)).filter isAllowedLabelChar).take 255

/-- String form of `normalize_label(s)`. -/
def normalize_label (s : String) : String := ⟨normalizeLabelL s.data⟩

/-- Python `s.split(",")`. -/
def splitComma : List Char → List (List Char)
  | [] => [[]]
  | c :: rest =>
    if c = ',' then [] :: splitComma rest
    else
      match splitComma rest with
      | h :: t => (c :: h) :: t
      | [] => [[c]]

/-- Embeds `parse_tags(tags)` from `src/upload_to_jira.py`: falsy input → `[]`;
else split on commas, strip parts, keep non-empty ones, normalize each. -/
def parse_tags (tags : Option String) : List (List Char) :=
  match tags with
  | none => []
  | some t =>
    if t = "" then []
    else (((splitComma t.data).map stripL).filter (· ≠ [])).map normalizeLabelL

/-- Embeds `merge_labels(*label_lists)` from `src/upload_to_jira.py`: one pass over
all labels, appending each truthy label not seen before (the Python `seen`
set always holds exactly the members of `out`, so membership in `out` is
the same test). -/
def merge_labels (labelLists : List (List (List Char))) : List (List Char) :=
  labelLists.flatten.foldl
    (fun out x => if x ≠ [] ∧ x ∉ out then out ++ [x] else out) []

/-- The Tags/codebase label computation of `TaskMapper.map_task`. -/
def labels_of (tags codebase : Option String) : List (List Char) :=
  merge_labels [parse_tags tags, parse_tags codebase]

/-- The claim's label pipeline, worded as the claim states it: split on
commas, trim each part, lower-case, collapse whitespace runs to hyphens,
strip disallowed characters, truncate to 255 — with no part ever
discarded. -/
def claimSplitLabels (s : String) : List (List Char) :=
  (splitComma s.data).map (fun p => normalizeLabelL (stripL p))

/-- First-seen-order de-duplication, as the claim words the union. -/
def dedupFirstSeenAux (seen : List (List Char)) : List (List Char) → List (List Char)
  | [] => []
  | x :: rest =>
    if x ∈ seen then dedupFirstSeenAux seen rest
    else x :: dedupFirstSeenAux (x :: seen) rest

def dedupFirstSeen (l : List (List Char)) : List (List Char) :=
  dedupFirstSeenAux [] l

/-- The two-field label mapping exactly as the claim words it. -/
def claimLabels (tags codebase : String) : List (List Char) :=
  dedupFirstSeen (claimSplitLabels tags ++ claimSplitLabels codebase)

/-- First-seen-order de-duplication that also drops empty labels — the
amended union. -/
def dedupDropEmptyAux (seen : List (List Char)) : List (List Char) → List (List Char)
  | [] => []
  | x :: rest =>
    if x = [] ∨ x ∈ seen then dedupDropEmptyAux seen rest
    else x :: dedupDropEmptyAux (x :: seen) rest

def dedupDropEmpty (l : List (List Char)) : List (List Char) :=
  dedupDropEmptyAux [] l

/-- Per-field split of the amended claim: parts that trim to empty are
discarded before normalization. -/
def claimSplitLabelsAmended (s : String) : List (List Char) :=
  (((splitComma s.data).map stripL).filter (· ≠ [])).map normalizeLabelL

end NotionJira

namespace NotionJira

example : labels_of (some "Bug Fix!, API ") (some "") = ["bug-fix".data, "api".data] := by decide
example : claimLabels "!!!" "" = [[]] := by decide
example : labels_of (some "!!!") (some "") = [] := by decide

/-- The fold of `merge_labels` equals the recursive drop-empty
de-duplication, for any accumulator whose members agree with `seen`. -/
theorem merge_foldl_eq_dedupAux (l : List (List Char)) :
    ∀ out seen : List (List Char), (∀ y, y ∈ out ↔ y ∈ seen) →
      l.foldl (fun out x => if x ≠ [] ∧ x ∉ out then out ++ [x] else out) out =
        out ++ dedupDropEmptyAux seen l := by
  induction l with
  | nil => intro out seen _; simp [dedupDropEmptyAux]
  | cons x rest ih =>
    intro out seen h
    simp only [List.foldl_cons, dedupDropEmptyAux]
    by_cases hx : x = []
    · rw [if_neg (by simp [hx]), if_pos (Or.inl hx)]
      exact ih out seen h
    · by_cases hmem : x ∈ out
      · rw [if_neg (by simp [hmem]), if_pos (Or.inr ((h x).mp hmem))]
        exact ih out seen h
      · rw [if_pos ⟨hx, hmem⟩, if_neg (by
          rintro (h1 | h2)
          · exact hx h1
          · exact hmem ((h x).mpr h2))]
        rw [ih (out ++ [x]) (x :: seen) (by intro y; simp [h y, or_comm])]
        simp

/-- Here `parse_tags` coincides with the amended per-field split. -/
theorem parse_tags_eq_amended (s : String) :
    parse_tags (some s) = claimSplitLabelsAmended s := by
  by_cases h : s = ""
  · subst h; decide
  · simp [parse_tags, claimSplitLabelsAmended, h]

/-- C5 counterexample: On Tags `"!!!"` (codebase field empty) the
claim's pipeline — split, trim, normalize every part, then de-duplicate —
yields the one-element list `[""]`, while the code drops the label that
normalizes to the empty string and yields `[]`. -/
theorem C5_labels_counterexample :
    claimLabels "!!!" "" = [[]]
    ∧ labels_of (some "!!!") (some "") = []
    ∧ claimLabels "!!!" "" ≠ labels_of (some "!!!") (some "") := by
  exact ⟨by decide, by decide, by decide⟩

/-- C5 amended: The label mapping splits each field on commas, trims
each part and *discards parts that trim to empty*, lower-cases, collapses
whitespace runs to single hyphens, strips characters outside
`[a-z0-9\-_]`, truncates to 255; the two lists are unioned preserving
first-seen order, with duplicates *and labels that normalize to the empty
string* removed. Input `"Bug Fix!, API "` still yields
`["bug-fix", "api"]`. -/
theorem C5_labels_amended :
    (∀ tags codebase : String,
        labels_of (some tags) (some codebase) =
          dedupDropEmpty (claimSplitLabelsAmended tags ++ claimSplitLabelsAmended codebase))
    ∧ labels_of (some "Bug Fix!, API ") (some "") = ["bug-fix".data, "api".data] := by
  constructor
  · intro tags codebase
    rw [labels_of, merge_labels, parse_tags_eq_amended, parse_tags_eq_amended]
    rw [dedupDropEmpty]
    have h := merge_foldl_eq_dedupAux
      (claimSplitLabelsAmended tags ++ claimSplitLabelsAmended codebase) [] []
      (by intro y; simp)
    simpa using h
  · decide

end NotionJira

namespace NotionJira

/-! ### Estimate parsing (src/upload_to_jira.py) -/

/-- One attempt of the pattern `\((\d+)\s*t\)` anchored at the current
position: `(`, one or more digits, any whitespace, `t`, `)`. Returns the
captured digit run. -/
def estMatchAt : List Char → Option (List Char)
  | '(' :: rest =>
    let ds := rest.takeWhile isDigit
    if ds = [] then none
    else
      match (rest.dropWhile isDigit).dropWhile isPySpace with
      | 't' :: ')' :: _ => some ds
      | _ => none
  | _ => none

/-- Scan semantics of `re.search` for the pattern: try each position left to
right, succeed at the first match. -/
def estSearch : List Char → Option (List Char)
  | [] => none
  | c :: rest =>
    match estMatchAt (c :: rest) with
    | some ds => some ds
    | none => estSearch rest

/-- Embeds `parse_estimate_to_jira(original)` from `src/upload_to_jira.py`:
falsy input → `None`; else search `\((\d+)\s*t\)` in the lower-cased
string and render the captured integer as `"<n>h"`. -/
def parse_estimate_to_jira (original : Option String) : Option String :=
  match original with
  | none => none
  | some s =>
    if s = "" then none
    else
      match estSearch (s.data.map pyToLower) with
      | none => none
      | some ds => some (toString (natOfDigits ds) ++ "h")

/-- The claim's reading: extract the *trailing* (last) such token. -/
def estSearchLast : List Char → Option (List Char)
  | [] => none
  | c :: rest =>
    match estSearchLast rest with
    | some ds => some ds
    | none => estMatchAt (c :: rest)

/-- Estimate extraction as the claim words it (trailing token). -/
def claim_estimate_trailing (original : Option String) : Option String :=
  match original with
  | none => none
  | some s =>
    if s = "" then none
    else
      match estSearchLast (s.data.map pyToLower) with
      | none => none
      | some ds => some (toString (natOfDigits ds) ++ "h")

example : parse_estimate_to_jira (some "S: Liten (4t)") = some "4h" := by decide
example : parse_estimate_to_jira (some "no hours here") = none := by decide
example : parse_estimate_to_jira (some "(2t) (3t)") = some "2h" := by decide
example : claim_estimate_trailing (some "(2t) (3t)") = some "3h" := by decide
example : parse_estimate_to_jira (some "X (10 T)") = some "10h" := by decide

end NotionJira

namespace NotionJira

/-- A failed attempt at every position means the search fails. -/
theorem estSearch_eq_none_iff :
    ∀ l : List Char, estSearch l = none ↔ ∀ i, estMatchAt (l.drop i) = none := by
  intro l
  induction l with
  | nil => simp [estSearch, estMatchAt]
  | cons c rest ih =>
    constructor
    · intro h i
      cases hm : estMatchAt (c :: rest) with
      | some ds => simp [estSearch, hm] at h
      | none =>
        cases i with
        | zero => exact hm
        | succ i =>
          have h' : estSearch rest = none := by simpa [estSearch, hm] using h
          simpa using (ih.mp h') i
    · intro h
      have h0 := h 0
      simp only [List.drop_zero] at h0
      have h' : estSearch rest = none := ih.mpr (fun i => by simpa using h (i + 1))
      simp [estSearch, h0, h']

/-- A successful search returns the match at the leftmost matching
position. -/
theorem estSearch_leftmost :
    ∀ (l : List Char) (ds : List Char), estSearch l = some ds →
      ∃ i, estMatchAt (l.drop i) = some ds ∧ ∀ j < i, estMatchAt (l.drop j) = none := by
  intro l
  induction l with
  | nil => intro ds h; simp [estSearch] at h
  | cons c rest ih =>
    intro ds h
    cases hm : estMatchAt (c :: rest) with
    | some ds' =>
      have : ds' = ds := by simpa [estSearch, hm] using h
      subst this
      exact ⟨0, hm, fun j hj => absurd hj (Nat.not_lt_zero j)⟩
    | none =>
      have h' : estSearch rest = some ds := by simpa [estSearch, hm] using h
      obtain ⟨i, hi, hlt⟩ := ih ds h'
      refine ⟨i + 1, by simpa using hi, fun j hj => ?_⟩
      cases j with
      | zero => exact hm
      | succ j => simpa using hlt j (Nat.lt_of_succ_lt_succ hj)

/-- C6 counterexample: On `"(2t) (3t)"` the trailing parenthesized
token is `(3t)`, so the claim's reading yields `"3h"`, but the code's
`re.search` takes the leftmost token and yields `"2h"`. -/
theorem C6_estimate_counterexample :
    parse_estimate_to_jira (some "(2t) (3t)") = some "2h"
    ∧ claim_estimate_trailing (some "(2t) (3t)") = some "3h"
    ∧ parse_estimate_to_jira (some "(2t) (3t)") ≠
        claim_estimate_trailing (some "(2t) (3t)") :=
  ⟨by decide, by decide, by decide⟩

/-- C6 amended: `parse_estimate_to_jira` extracts the *first
(leftmost)* parenthesized `"<integer>t"` token of the lower-cased string
(optional whitespace before the `t`) and returns `"<integer>h"`; it
returns none when the string is absent or contains no such token anywhere.
`"S: Liten (4t)"` maps to `"4h"` and `"no hours here"` to none. -/
theorem C6_estimate_amended :
    parse_estimate_to_jira none = none
    ∧ parse_estimate_to_jira (some "S: Liten (4t)") = some "4h"
    ∧ parse_estimate_to_jira (some "no hours here") = none
    ∧ (∀ s : String,
        (∀ i, estMatchAt ((s.data.map pyToLower).drop i) = none) →
        parse_estimate_to_jira (some s) = none)
    ∧ (∀ (s : String) (ds : List Char),
        estSearch (s.data.map pyToLower) = some ds → s ≠ "" →
        parse_estimate_to_jira (some s) = some (toString (natOfDigits ds) ++ "h")
        ∧ ∃ i, estMatchAt ((s.data.map pyToLower).drop i) = some ds
            ∧ ∀ j < i, estMatchAt ((s.data.map pyToLower).drop j) = none) := by
  refine ⟨rfl, by decide, by decide, ?_, ?_⟩
  · intro s h
    by_cases hs : s = ""
    · subst hs; rfl
    · have : estSearch (s.data.map pyToLower) = none := (estSearch_eq_none_iff _).mpr h
      simp [parse_estimate_to_jira, hs, this]
  · intro s ds h hs
    refine ⟨by simp [parse_estimate_to_jira, hs, h], estSearch_leftmost _ ds h⟩

/-- Witness for C6 amended at `"nothing"` (no token) and
`"S: Liten (4t)"` (token `4`). -/
theorem C6_estimate_amended_witness :
    parse_estimate_to_jira (some "nothing") = none
    ∧ parse_estimate_to_jira (some "S: Liten (4t)") = some "4h" := by
  constructor
  · exact C6_estimate_amended.2.2.2.1 "nothing"
      ((estSearch_eq_none_iff _).mp (by decide))
  · exact (C6_estimate_amended.2.2.2.2 "S: Liten (4t)" ['4'] (by decide) (by decide)).1

end NotionJira

namespace NotionJira

/-- Unfold `isPySpace` into its six cases. -/
theorem isPySpace_cases {c : Char} (h : isPySpace c = true) :
    c = ' ' ∨ c = '\t' ∨ c = '\n' ∨ c = '\r' ∨ c = '\x0c' ∨ c = '\x0b' := by
  simpa [isPySpace, Bool.or_eq_true, decide_eq_true_eq, or_assoc] using h

/-- Unfold `isAllowedLabelChar` into its four cases. -/
theorem isAllowedLabelChar_cases {c : Char} (h : isAllowedLabelChar c = true) :
    ('a' ≤ c ∧ c ≤ 'z') ∨ ('0' ≤ c ∧ c ≤ '9') ∨ c = '-' ∨ c = '_' := by
  simpa [isAllowedLabelChar, Bool.or_eq_true, Bool.and_eq_true,
    decide_eq_true_eq, or_assoc] using h

/-- Allowed label characters are not whitespace. -/
theorem allowed_not_space {c : Char} (h : isAllowedLabelChar c = true) :
    isPySpace c = false := by
  by_contra hcon
  rw [Bool.not_eq_false] at hcon
  rcases isAllowedLabelChar_cases h with ⟨h1, _⟩ | ⟨h1, _⟩ | rfl | rfl
  · rcases isPySpace_cases hcon with rfl | rfl | rfl | rfl | rfl | rfl <;>
      exact absurd h1 (by decide)
  · rcases isPySpace_cases hcon with rfl | rfl | rfl | rfl | rfl | rfl <;>
      exact absurd h1 (by decide)
  · exact absurd hcon (by decide)
  · exact absurd hcon (by decide)

/-- Allowed label characters are untouched by ASCII lower-casing. -/
theorem pyToLower_of_allowed {c : Char} (h : isAllowedLabelChar c = true) :
    pyToLower c = c := by
  rw [pyToLower, if_neg]
  rintro ⟨hA, hZ⟩
  rcases isAllowedLabelChar_cases h with ⟨h1, _⟩ | ⟨_, h2⟩ | rfl | rfl
  · exact absurd (le_trans h1 hZ) (by decide)
  · exact absurd (le_trans hA h2) (by decide)
  · exact absurd hA (by decide)
  · exact absurd hZ (by decide)

/-- Fact: `dropWhile` is the identity on lists with no satisfying character. -/
theorem dropWhile_eq_self_of_none (p : Char → Bool) (l : List Char)
    (h : ∀ c ∈ l, p c = false) : l.dropWhile p = l := by
  cases l with
  | nil => rfl
  | cons a t => simp [List.dropWhile_cons, h a (by simp)]

/-- Fact: `stripL` is the identity on whitespace-free lists. -/
theorem stripL_eq_self_of_no_space {l : List Char}
    (h : ∀ c ∈ l, isPySpace c = false) : stripL l = l := by
  rw [stripL, dropTrailing, dropWhile_eq_self_of_none _ _ h,
    dropWhile_eq_self_of_none _ _ (by simpa using h), List.reverse_reverse]

/-- Whitespace collapsing is the identity on whitespace-free lists. -/
theorem collapseWsAux_eq_self_of_no_space {l : List Char}
    (h : ∀ c ∈ l, isPySpace c = false) (b : Bool) : collapseWsAux b l = l := by
  induction l generalizing b with
  | nil => rfl
  | cons a t ih =>
    simp [collapseWsAux, h a (by simp), ih (fun c hc => h c (by simp [hc]))]

/-- Fact: `map` is the identity when `f` fixes every member. -/
theorem map_eq_self_of (f : Char → Char) (l : List Char)
    (h : ∀ c ∈ l, f c = c) : l.map f = l := by
  induction l with
  | nil => rfl
  | cons a t ih => simp [h a (by simp), ih (fun c hc => h c (by simp [hc]))]

/-- Every character of a normalized label is allowed. -/
theorem mem_normalizeLabelL_allowed {l : List Char} {c : Char}
    (hc : c ∈ normalizeLabelL l) : isAllowedLabelChar c = true := by
  rw [normalizeLabelL] at hc
  exact (List.mem_filter.mp (List.take_subset _ _ hc)).2

/-- C10: `normalize_label` is idempotent: a label already in
destination-normalized form passes through unchanged. -/
theorem C10_normalize_label_idempotent (s : String) :
    normalize_label (normalize_label s) = normalize_label s := by
  show (⟨normalizeLabelL (normalizeLabelL s.data)⟩ : String) = ⟨normalizeLabelL s.data⟩
  congr 1
  set out := normalizeLabelL s.data with hout
  have hall : ∀ c ∈ out, isAllowedLabelChar c = true :=
    fun c hc => mem_normalizeLabelL_allowed (hout ▸ hc)
  have hsp : ∀ c ∈ out, isPySpace c = false :=
    fun c hc => allowed_not_space (hall c hc)
  have h1 : stripL out = out := stripL_eq_self_of_no_space hsp
  have h2 : out.map pyToLower = out :=
    map_eq_self_of pyToLower out (fun c hc => pyToLower_of_allowed (hall c hc))
  have h3 : collapseWs out = out := collapseWsAux_eq_self_of_no_space hsp false
  have h4 : out.filter isAllowedLabelChar = out := List.filter_eq_self.mpr hall
  have h5 : out.length ≤ 255 := by
    rw [hout, normalizeLabelL]
    simp [List.length_take]
  rw [normalizeLabelL, h1, h2, h3, h4, List.take_of_length_le h5]

end NotionJira

namespace NotionJira

/-- Fact: `dropTrailing` is Mathlib's `rdropWhile`. -/
theorem dropTrailing_eq_rdropWhile (p : Char → Bool) (l : List Char) :
    dropTrailing p l = List.rdropWhile p l := rfl

/-- Fact: `dropWhile` is the identity when the head (if any) fails `p`. -/
theorem dropWhile_eq_self_of_head (p : Char → Bool) :
    ∀ l : List Char, (∀ (a : Char) (t : List Char), l = a :: t → p a = false) →
      l.dropWhile p = l
  | [], _ => rfl
  | a :: t, h => by simp [List.dropWhile_cons, h a t rfl]

/-- If `dropWhile` returns a cons, its head fails `p`. -/
theorem dropWhile_head_fails {p : Char → Bool} {l w : List Char} {a : Char}
    (h : l.dropWhile p = a :: w) : p a = false := by
  by_contra hpa
  rw [Bool.not_eq_false] at hpa
  have hid := List.dropWhile_idempotent p l
  rw [h, List.dropWhile_cons, if_pos hpa] at hid
  have hlen := (List.dropWhile_suffix (l := w) p).length_le
  rw [hid] at hlen
  simp at hlen

/-- Python `strip` is idempotent. -/
theorem stripL_idempotent (l : List Char) : stripL (stripL l) = stripL l := by
  have key : (stripL l).dropWhile isPySpace = stripL l := by
    apply dropWhile_eq_self_of_head
    intro a t hat
    obtain ⟨t', ht'⟩ := List.rdropWhile_prefix isPySpace (l.dropWhile isPySpace)
    have hx : l.dropWhile isPySpace = a :: (t ++ t') := by
      have hx0 : stripL l ++ t' = l.dropWhile isPySpace := ht'
      rw [← hx0, hat]
      simp
    exact dropWhile_head_fails hx
  show dropTrailing isPySpace ((stripL l).dropWhile isPySpace) = stripL l
  rw [key, stripL, dropTrailing_eq_rdropWhile, dropTrailing_eq_rdropWhile]
  exact List.rdropWhile_idempotent _ _

/-- Fact: `stripS` is idempotent. -/
theorem stripS_idempotent (s : String) : stripS (stripS s) = stripS s :=
  congrArg String.mk (stripL_idempotent s.data)

end NotionJira

namespace NotionJira

/-! ### Notion blocks (src/extract_from_notion.py)

A block is embedded with its `type`, the payload's `rich_text` array as
the list of the fragments' `plain_text` strings (`none` models a payload
without the key), the Python truthiness of `payload.get("checked")`, the
`has_children` flag, the truthiness of the block `id`, and the children
the API would return for that id — the network fetch of
`fetch_block_children` is the `children` field. -/
inductive Block : Type where
  | node (type : String) (richText : Option (List String)) (checked : Bool)
      (hasChildren : Bool) (hasId : Bool) (children : List Block) : Block

/-- Embeds `_plain_text(rich_text)`: concatenate the fragments' `plain_text` and
strip (an absent or empty array gives `""` either way). -/
def plainText (rts : List String) : String :=
  stripS ⟨(rts.map String.data).flatten⟩

/-- Embeds `_block_text(block)`: text of the payload's `rich_text`; `to_do` gets a
checkbox marker, list items a generic marker; every branch strips. A falsy
`type` yields `""`. -/
def blockText : Block → String
  | .node type richText checked _ _ _ =>
    if type = "" then ""
    else
      let text :=
        match richText with
        | some rts => plainText rts
        | none => ""
      if type = "to_do" then
        stripS ((if checked then "[x] " else "[ ] ") ++ text)
      else if type = "bulleted_list_item" then stripS ("- " ++ text)
      else if type = "numbered_list_item" then stripS ("1. " ++ text)
      else stripS text

/-- Python `"  " * indent`. -/
def indentStr : Nat → String
  | 0 => ""
  | n + 1 => "  " ++ indentStr n

mutual

/-- One iteration of the loop body of `_flatten_blocks_with_children`: the
block's own line (when its text is truthy), then its recursively flattened
children (fetched — read off the model — only when `has_children` and the
id are truthy). -/
def flattenOne : Nat → Block → List String
  | indent, .node type richText checked hasChildren hasId children =>
    (if blockText (.node type richText checked hasChildren hasId children) ≠ "" then
        [indentStr indent ++ blockText (.node type richText checked hasChildren hasId children)]
      else []) ++
      (if hasChildren && hasId then flattenBlocks (indent + 1) children else [])

/-- Embeds `_flatten_blocks_with_children(blocks, indent)`: depth-first flatten
into indented text lines. -/
def flattenBlocks : Nat → List Block → List String
  | _, [] => []
  | indent, b :: rest => flattenOne indent b ++ flattenBlocks indent rest

end

/-- Python `s.startswith(pre)`. -/
def pyStartsWith (s pre : String) : Bool := pre.data.isPrefixOf s.data

/-- The label search of `extract_description_from_page`: does this block's
text, lower-cased then stripped, start with `"beskrivelse"`? -/
def descLabelHit (b : Block) : Bool :=
  pyStartsWith (stripS (lowerS (blockText b))) "beskrivelse"

/-- The index-finding loop of `extract_description_from_page`. -/
def descFindIdx : List Block → Nat → Option Nat
  | [], _ => none
  | b :: rest, i => if descLabelHit b then some i else descFindIdx rest (i + 1)

/-- Is this line a manual comments-section sentinel? (`line.strip().lower()`
compared against the fixed triple.) -/
def descSentinel (line : String) : Bool :=
  let l := lowerS (stripS line)
  l = "kommentarer:" || l = "comments:" || l = "comments"

/-- The cleaning loop: keep lines until the first sentinel. -/
def takeUntilSentinel : List String → List String
  | [] => []
  | line :: rest =>
    if descSentinel line then [] else line :: takeUntilSentinel rest

/-- Embeds `extract_description_from_page`, over the page's fetched top-level
blocks: find the label block, flatten everything after it, truncate at a
sentinel line, join with newlines and strip. -/
def extract_description_from_page (topBlocks : List Block) : String :=
  match descFindIdx topBlocks 0 with
  | none => ""
  | some idx =>
    let after := topBlocks.drop (idx + 1)
    let lines := flattenBlocks 0 after
    stripS (String.intercalate "\n" (takeUntilSentinel lines))

/-- A heading block bearing one plain-text fragment, no children. -/
def headingBlock (text : String) : Block :=
  .node "heading_2" (some [text]) false false false []

/-- A paragraph block bearing one plain-text fragment, no children. -/
def paragraphBlock (text : String) : Block :=
  .node "paragraph" (some [text]) false false false []

example : extract_description_from_page
    [headingBlock "Beskrivelse", paragraphBlock "A", paragraphBlock "B"] = "A\nB" := by decide
example : extract_description_from_page
    [headingBlock "Intro", paragraphBlock "A"] = "" := by decide
example : extract_description_from_page
    [headingBlock "Beskrivelse:", paragraphBlock "A", paragraphBlock "Kommentarer:",
     paragraphBlock "B"] = "A" := by decide

end NotionJira

namespace NotionJira

/-- The index-finding loop is `List.findIdx?` (with the same running
index). -/
theorem descFindIdx_eq_findIdx? :
    ∀ (l : List Block) (i : Nat), descFindIdx l i = List.findIdx? descLabelHit l i := by
  intro l
  induction l with
  | nil => intro i; rfl
  | cons b rest ih =>
    intro i
    by_cases h : descLabelHit b <;> simp [descFindIdx, h, List.findIdx?_cons, ih]

/-- C3: Description extraction finds the first top-level block whose
text, lower-cased (and stripped), starts with `"beskrivelse"`; with no
such block it returns `""`; otherwise it returns the depth-first
flattening of all subsequent blocks, truncated before the first
comments-section sentinel line, joined by newlines (and stripped). The
concrete instance `[Heading "Beskrivelse", Paragraph "A", Paragraph "B"]`
yields `"A\nB"`. -/
theorem C3_description_extraction :
    extract_description_from_page
        [headingBlock "Beskrivelse", paragraphBlock "A", paragraphBlock "B"] = "A\nB"
    ∧ (∀ topBlocks : List Block,
        List.findIdx? descLabelHit topBlocks = none →
        extract_description_from_page topBlocks = "")
    ∧ (∀ (topBlocks : List Block) (i : Nat),
        List.findIdx? descLabelHit topBlocks = some i →
        extract_description_from_page topBlocks =
          stripS (String.intercalate "\n"
            (takeUntilSentinel (flattenBlocks 0 (topBlocks.drop (i + 1)))))) := by
  refine ⟨by decide, ?_, ?_⟩
  · intro topBlocks h
    simp [extract_description_from_page, descFindIdx_eq_findIdx?, h]
  · intro topBlocks i h
    simp [extract_description_from_page, descFindIdx_eq_findIdx?, h]

/-- Witness for C3: a page with no label block yields `""`; a page
with the label block first yields the flattened remainder. -/
theorem C3_description_extraction_witness :
    extract_description_from_page [paragraphBlock "X"] = ""
    ∧ extract_description_from_page [headingBlock "Beskrivelse", paragraphBlock "A"] = "A" := by
  constructor
  · exact C3_description_extraction.2.1 [paragraphBlock "X"] (by decide)
  · rw [C3_description_extraction.2.2 [headingBlock "Beskrivelse", paragraphBlock "A"] 0
      (by decide)]
    decide

end NotionJira

namespace NotionJira

/-- A strip fixed point is fixed by each side separately. -/
theorem stripL_parts {l : List Char} (h : stripL l = l) :
    l.dropWhile isPySpace = l ∧ List.rdropWhile isPySpace l = l := by
  have h' : List.rdropWhile isPySpace (l.dropWhile isPySpace) = l := h
  have hlen1 : (l.dropWhile isPySpace).length ≤ l.length :=
    (List.dropWhile_suffix _).length_le
  have hlen2 : l.length ≤ (l.dropWhile isPySpace).length := by
    conv_lhs => rw [← h']
    exact (List.rdropWhile_prefix _ _).length_le
  have hdw : l.dropWhile isPySpace = l :=
    (List.dropWhile_suffix _).eq_of_length (le_antisymm hlen1 hlen2)
  rw [hdw] at h'
  exact ⟨hdw, h'⟩

/-- Prepending a marker that starts with a non-space character to a
stripped, non-empty string leaves `strip` with nothing to do. -/
theorem stripL_marker_append (a : Char) (ha : isPySpace a = false)
    (mrest text : List Char) (hne : text ≠ []) (hstrip : stripL text = text) :
    stripL ((a :: mrest) ++ text) = (a :: mrest) ++ text := by
  obtain ⟨_, hrdw⟩ := stripL_parts hstrip
  rw [stripL, dropTrailing_eq_rdropWhile, List.cons_append, List.dropWhile_cons,
    if_neg (by simp [ha])]
  apply List.rdropWhile_eq_self_iff.mpr
  intro hl
  have hlast : (a :: (mrest ++ text)).getLast hl = text.getLast hne := by
    have h1 : (a :: (mrest ++ text)).getLast? = text.getLast? :=
      List.getLast?_append_of_ne_nil (a :: mrest) hne
    rw [List.getLast?_eq_getLast _ hl, List.getLast?_eq_getLast _ hne] at h1
    exact Option.some_injective _ h1
  rw [hlast]
  exact List.rdropWhile_eq_self_iff.mp hrdw hne

/-- Fact: `text ≠ ""` transfers to the character list. -/
theorem data_ne_nil_of_ne_empty {text : String} (h : text ≠ "") : text.data ≠ [] :=
  fun hd => h (congrArg String.mk hd)

/-- Evaluates `_block_text` on a `to_do` block with one stripped, non-empty
fragment: the literal checkbox marker plus the text. -/
theorem blockText_todo (text : String) (checked hasChildren hasId : Bool)
    (children : List Block) (hstrip : stripS text = text) (hne : text ≠ "") :
    blockText (.node "to_do" (some [text]) checked hasChildren hasId children) =
      (if checked then "[x] " else "[ ] ") ++ text := by
  have hpt : plainText [text] = text := by
    show stripS ⟨([text].map String.data).flatten⟩ = text
    have hflat : ([text].map String.data).flatten = text.data := by simp
    rw [hflat]
    exact hstrip
  show stripS ((if checked then "[x] " else "[ ] ") ++ plainText [text]) = _
  rw [hpt]
  cases checked with
  | true =>
    rw [if_pos rfl]
    have hd : ("[x] " ++ text).data = '[' :: "x] ".data ++ text.data := by
      rw [String.data_append]
    calc stripS ("[x] " ++ text)
        = ⟨stripL (("[x] " ++ text).data)⟩ := rfl
      _ = ⟨stripL ('[' :: "x] ".data ++ text.data)⟩ := by rw [hd]
      _ = ⟨'[' :: "x] ".data ++ text.data⟩ :=
            congrArg String.mk (stripL_marker_append '[' (by decide) _ _
              (data_ne_nil_of_ne_empty hne) (congrArg String.data hstrip))
      _ = "[x] " ++ text := congrArg String.mk hd.symm
  | false =>
    rw [if_neg (by simp)]
    have hd : ("[ ] " ++ text).data = '[' :: " ] ".data ++ text.data := by
      rw [String.data_append]
    calc stripS ("[ ] " ++ text)
        = ⟨stripL (("[ ] " ++ text).data)⟩ := rfl
      _ = ⟨stripL ('[' :: " ] ".data ++ text.data)⟩ := by rw [hd]
      _ = ⟨'[' :: " ] ".data ++ text.data⟩ :=
            congrArg String.mk (stripL_marker_append '[' (by decide) _ _
              (data_ne_nil_of_ne_empty hne) (congrArg String.data hstrip))
      _ = "[ ] " ++ text := congrArg String.mk hd.symm

end NotionJira

namespace NotionJira

/-- The depth-2 tree of the claim: a checked checklist item two levels
below a top-level heading. -/
def c8DeepTree : Block :=
  .node "heading_2" (some ["Overskrift"]) false true true
    [.node "paragraph" (some ["mid"]) false true true
      [.node "to_do" (some ["hello"]) true false false []]]

/-- C8 counterexample: In the depth-2 tree the checked item renders
with a four-space indent (`"    [x] hello"`), not the two-space
`"  [x] hello"` the claim states. -/
theorem C8_flatten_counterexample :
    flattenBlocks 0 [c8DeepTree] = ["Overskrift", "  mid", "    [x] hello"]
    ∧ "  [x] hello" ∉ flattenBlocks 0 [c8DeepTree] := by
  constructor
  · decide
  · decide

/-- C8 amended: Flattening indents each rendered line by two spaces
per nesting-depth level (`indentStr d` is `2·d` spaces); a checklist item
renders with the literal `"[x] "`/`"[ ] "` marker; and a checked item at
depth 1 — directly under a top-level heading, hence one nesting level down
— renders as `"  [x] <text>"`. -/
theorem C8_flatten_amended :
    (∀ d : Nat, (indentStr d).data = List.replicate (2 * d) ' ')
    ∧ (∀ (d : Nat) (text : String) (rest : List Block) (checked : Bool),
        stripS text = text → text ≠ "" →
        flattenBlocks d (Block.node "to_do" (some [text]) checked false false [] :: rest) =
          (indentStr d ++ ((if checked then "[x] " else "[ ] ") ++ text)) ::
            flattenBlocks d rest)
    ∧ flattenBlocks 0
        [Block.node "heading_2" (some ["Overskrift"]) false true true
          [Block.node "to_do" (some ["hello"]) true false false []]] =
        ["Overskrift", "  [x] hello"] := by
  refine ⟨?_, ?_, by decide⟩
  · intro d
    induction d with
    | zero => rfl
    | succ n ih =>
      show ("  " ++ indentStr n).data = _
      rw [String.data_append, ih]
      show ' ' :: ' ' :: List.replicate (2 * n) ' ' = _
      rw [show 2 * (n + 1) = 2 * n + 1 + 1 by ring, List.replicate_succ,
        List.replicate_succ]
  · intro d text rest checked hstrip hne
    have hbt := blockText_todo text checked false false [] hstrip hne
    have hmark_ne : (if checked then "[x] " else "[ ] ") ++ text ≠ "" := by
      intro h0
      have := congrArg String.data h0
      rw [String.data_append] at this
      cases checked <;> simp at this
    show flattenOne d _ ++ flattenBlocks d rest = _
    rw [flattenOne, hbt, if_pos hmark_ne]
    simp

end NotionJira

namespace NotionJira

/-- Witness for C8 amended at depth 1 with text `"hello"`. -/
theorem C8_flatten_amended_witness :
    flattenBlocks 1 [Block.node "to_do" (some ["hello"]) true false false []] =
      ["  [x] hello"] := by
  rw [C8_flatten_amended.2.1 1 "hello" [] true (by decide) (by decide)]
  decide

end NotionJira

namespace NotionJira

/-! ### Property model and the Normalizer (src/extract_from_notion.py)

One typed Notion property, carrying every payload key the accessors read.
`type = ""` models an absent/falsy `type`; `none`/`[]` payloads model
absent keys; option-valued names model `.get("name")`. -/
structure NProp where
  type : String
  title : List String
  rich_text : List String
  selectName : Option String
  statusName : Option String
  multiSelect : List (Option String)
  people : List (Option String)
  dateStart : Option String
  dateEnd : Option String
deriving DecidableEq

/-- The `{}` that `properties.get(name) or {}` yields. -/
def emptyProp : NProp := ⟨"", [], [], none, none, [], [], none, none⟩

/-- Embeds `_get_prop(properties, name)`. -/
def getProp (properties : List (String × NProp)) (name : String) : NProp :=
  match (List.find? (fun p => p.1 = name) properties).map Prod.snd with
  | some p => p
  | none => emptyProp

/-- Embeds `_as_title(prop)`. -/
def asTitle (p : NProp) : String :=
  if p.type = "title" then plainText p.title
  else if p.type = "rich_text" then plainText p.rich_text
  else ""

/-- Embeds `_as_select_name(prop)`. -/
def asSelectName (p : NProp) : String :=
  if p.type = "select" then stripS (orEmpty p.selectName)
  else if p.type = "status" then stripS (orEmpty p.statusName)
  else ""

/-- Embeds `_as_multi_select_names(prop)`: truthy-named options, stripped, the
non-empty ones joined by `", "`; any other type falls back to the select
accessor (`one if one else ""` is just `one`). -/
def asMultiSelectNames (p : NProp) : String :=
  if p.type = "multi_select" then
    String.intercalate ", "
      (((p.multiSelect.filter optTruthy).map (fun n => stripS (orEmpty n))).filter (· ≠ ""))
  else asSelectName p

/-- Embeds `_as_people_names(prop)`. -/
def asPeopleNames (p : NProp) : String :=
  if p.type = "people" then
    String.intercalate ", "
      ((p.people.map (fun n => stripS (orEmpty n))).filter (· ≠ ""))
  else ""

/-- Embeds `_as_date_text(prop)`. -/
def asDateText (p : NProp) : String :=
  if p.type = "date" then
    let start := stripS (orEmpty p.dateStart)
    let e := stripS (orEmpty p.dateEnd)
    if start ≠ "" ∧ e ≠ "" ∧ e ≠ start then start ++ ".." ++ e else start
  else ""

/-- One comment record as `fetch_comments_text` reads it. -/
structure NComment where
  created_time : Option String
  rich_text : List String
deriving DecidableEq

/-- Embeds `fetch_comments_text`, over the already-paginated comment list:
render each comment with a truthy text as `"<timestamp>: <text>"`
(timestamp omitted when falsy), join by newline, strip. -/
def fetchCommentsText (comments : List NComment) : String :=
  stripS (String.intercalate "\n" (comments.filterMap (fun c =>
    let created := stripS (orEmpty c.created_time)
    let text := plainText c.rich_text
    if text ≠ "" then
      some (if created ≠ "" then created ++ ": " ++ text else text)
    else none)))

/-- One source page: its `id` (with Python truthiness), its properties
dict, and the content the network would return for it — top-level blocks
and comments. -/
structure NPage where
  id : Option String
  properties : List (String × NProp)
  topBlocks : List Block
  comments : List NComment

/-- The eleven-field dictionary `normalize_task` builds before its final
re-strip loop. Every property is a dict in this model, so the
`isinstance(prop, dict)` guard of the title fallback is always true. -/
def normalize_task_raw (page : NPage) : List (String × String) :=
  let properties := page.properties
  let title0 := asTitle (getProp properties "Title")
  let title_text :=
    if title0 ≠ "" then title0
    else
      match List.find? (fun p => p.2.type = "title") properties with
      | some p => asTitle p.2
      | none => title0
  let comments_text :=
    if optTruthy page.id then fetchCommentsText page.comments else ""
  let description_text :=
    if optTruthy page.id then extract_description_from_page page.topBlocks else ""
  [("Title", stripS title_text),
   ("Status", stripS (asSelectName (getProp properties "Status"))),
   ("Prioritet", stripS (asSelectName (getProp properties "Prioritet"))),
   ("Estimater", stripS (asSelectName (getProp properties "Estimater"))),
   ("Tilordnet", stripS (asPeopleNames (getProp properties "Tilordnet"))),
   ("Tags", stripS (asMultiSelectNames (getProp properties "Tags"))),
   ("Ferdigstilt", stripS (asDateText (getProp properties "Ferdigstilt"))),
   ("Arkiveringsdato", stripS (asDateText (getProp properties "Arkiveringsdato"))),
   ("Kodebase / type", stripS (asMultiSelectNames (getProp properties "Kodebase / type"))),
   ("Description", stripS description_text),
   ("Comments", stripS comments_text)]

/-- Embeds `normalize_task(page)`: the dictionary above, then the final
`out[k] = (v or "").strip()` pass. -/
def normalize_task (page : NPage) : List (String × String) :=
  (normalize_task_raw page).map (fun kv => (kv.1, stripS kv.2))

end NotionJira

namespace NotionJira

/-- C4: For every source page, `normalize_task` yields a mapping with
exactly the eleven fixed field names, in order, and every value is a
trimmed string (no field is absent; values are strings by type). -/
theorem C4_normalize_task_shape (page : NPage) :
    (normalize_task page).map Prod.fst =
      ["Title", "Status", "Prioritet", "Estimater", "Tilordnet", "Tags",
       "Ferdigstilt", "Arkiveringsdato", "Kodebase / type", "Description", "Comments"]
    ∧ ∀ kv ∈ normalize_task page, stripS kv.2 = kv.2 := by
  constructor
  · rfl
  · intro kv hkv
    obtain ⟨orig, _, horig⟩ := List.mem_map.mp hkv
    rw [← horig]
    exact stripS_idempotent orig.2

/-- Witness for C4 at a completely empty page. -/
theorem C4_normalize_task_shape_witness :
    ("Title", "") ∈ normalize_task ⟨none, [], [], []⟩
    ∧ stripS "" = "" := by
  refine ⟨by decide, ?_⟩
  exact (C4_normalize_task_shape ⟨none, [], [], []⟩).2 ("Title", "") (by decide)

/-- A select-typed property carrying the name `"X"`. -/
def c9SelectProp : NProp := ⟨"select", [], [], some "X", none, [], [], none, none⟩

/-- A title-typed property with one fragment. -/
def c9TitleProp (text : String) : NProp :=
  ⟨"title", [text], [], none, none, [], [], none, none⟩

/-- The counterexample page: a property literally named `"Title"` exists
but is select-typed (its extracted text is `""`), while another property
is title-typed. -/
def c9Page : NPage :=
  ⟨none, [("Title", c9SelectProp), ("Name", c9TitleProp "Real")], [], []⟩

/-- Title extraction exactly as the claim words it: the fallback scan runs
iff no property is literally named `"Title"`. -/
def claimTitle (page : NPage) : String :=
  if (List.find? (fun p => p.1 = "Title") page.properties).isSome then
    asTitle (getProp page.properties "Title")
  else
    match List.find? (fun p => p.2.type = "title") page.properties with
    | some p => asTitle p.2
    | none => ""

/-- C9 counterexample: On a page whose `"Title"` property is
select-typed next to a title-typed `"Name"` property, the code's fallback
scan still runs (the extracted text is empty) and produces `"Real"`,
whereas the claim — `"Title"` present, use it without the fallback —
gives `""`. -/
theorem C9_title_counterexample :
    dictGet (normalize_task c9Page) "Title" = some "Real"
    ∧ stripS (claimTitle c9Page) = ""
    ∧ dictGet (normalize_task c9Page) "Title" ≠ some (stripS (claimTitle c9Page)) :=
  ⟨by decide, by decide, by decide⟩

/-- C9 amended: The fallback scan over title-typed properties runs
exactly when the extracted text of the property named `"Title"` is empty
(in particular when it is absent); when that text is non-empty it is used
without the fallback scan. -/
theorem C9_title_amended (page : NPage) :
    (asTitle (getProp page.properties "Title") ≠ "" →
      dictGet (normalize_task page) "Title" =
        some (stripS (asTitle (getProp page.properties "Title"))))
    ∧ (asTitle (getProp page.properties "Title") = "" →
      dictGet (normalize_task page) "Title" =
        some (stripS
          (match List.find? (fun p => p.2.type = "title") page.properties with
           | some p => asTitle p.2
           | none => ""))) := by
  constructor
  · intro h
    show some (stripS (stripS _)) = _
    rw [if_pos h, stripS_idempotent]
  · intro h
    show some (stripS (stripS _)) = _
    rw [if_neg (by simp [h]), stripS_idempotent]
    cases List.find? (fun p => p.2.type = "title") page.properties with
    | none => rw [h]
    | some p => rfl

end NotionJira

namespace NotionJira

/-- Witness for C9 amended: a real `"Title"` text is used directly;
the empty-text page falls back to the first title-typed property. -/
theorem C9_title_amended_witness :
    dictGet (normalize_task ⟨none, [("Title", c9TitleProp "T")], [], []⟩) "Title" = some "T"
    ∧ dictGet (normalize_task c9Page) "Title" = some "Real" := by
  constructor
  · rw [(C9_title_amended ⟨none, [("Title", c9TitleProp "T")], [], []⟩).1 (by decide)]
    decide
  · rw [(C9_title_amended c9Page).2 (by decide)]
    decide

end NotionJira

namespace NotionJira

/-! ### Task mapping and the write sequence (src/upload_to_jira.py) -/

def STATUS_ID_BACKLOG : String := "13380"
def STATUS_ID_READY : String := "13383"
def STATUS_ID_INPROGRESS : String := "13381"
def STATUS_ID_QA : String := "13384"
def STATUS_ID_DONE : String := "13382"

/-- Embeds `TaskMapper.status_map`. -/
def status_map : List (String × String) :=
  [("archived", STATUS_ID_DONE), ("done", STATUS_ID_DONE), ("qa", STATUS_ID_QA),
   ("in progress", STATUS_ID_INPROGRESS), ("ready for development", STATUS_ID_READY),
   ("backlog", STATUS_ID_BACKLOG)]

/-- Embeds `PRIORITY_MAP` (Notion → Jira priority name). -/
def PRIORITY_MAP : List (String × String) :=
  [("P: Lav", "Uviktig"), ("P: Medium", "Mindre alvorlig"),
   ("P: Høy", "Alvorlig"), ("P: Haster", "Kritisk")]

/-- One entry of the destination's live priority list. -/
structure JiraPriority where
  name : Option String
  id : Option String

/-- Embeds `TaskMapper.map_priority`. -/
def map_priority (src : Option String) (jira_priorities : List JiraPriority) :
    Option String :=
  match src with
  | none => none
  | some s =>
    if s = "" then none
    else
      let mapped_name :=
        match (List.find? (fun q => q.1 = stripS s) PRIORITY_MAP).map Prod.snd with
        | some v => v
        | none => stripS s
      match List.find?
          (fun p => lowerS (stripS (orEmpty p.name)) = lowerS mapped_name)
          jira_priorities with
      | some p => p.id
      | none => none

/-- Embeds `TaskMapper.map_status_id`. -/
def map_status_id (src : Option String) : Option String :=
  match src with
  | none => none
  | some s =>
    if s = "" then none
    else (List.find? (fun q => q.1 = lowerS (stripS s)) status_map).map Prod.snd

/-- Python `str.splitlines` restricted to `"\n"`, the only separator the
pipeline produces: split on newlines, with no trailing empty line and
`[] ` for the empty string. -/
def splitOnNl : List Char → List (List Char)
  | [] => [[]]
  | c :: rest =>
    if c = '\n' then [] :: splitOnNl rest
    else
      match splitOnNl rest with
      | h :: t => (c :: h) :: t
      | [] => [[c]]

def splitLines (s : String) : List String :=
  if s = "" then []
  else
    let parts := (splitOnNl s.data).map (fun l => (⟨l⟩ : String))
    if parts.getLast? = some "" then parts.dropLast else parts

/-- Embeds `TaskMapper.map_comments`. -/
def map_comments (src : Option String) : List String :=
  match src with
  | none => []
  | some s =>
    if s = "" then []
    else ((splitLines s).map stripS).filter (· ≠ "")

/-- Embeds `TaskMappingResult`. -/
structure TaskMappingResult where
  summary : String
  description : String
  labels : List (List Char)
  priority_id : Option String
  original_estimate : Option String
  target_status_id : Option String
  comments : List String
deriving DecidableEq

/-- Embeds `TaskMapper.map_task`: raises on a missing/blank Title, else maps every
field (`task.get("Labels") or task.get("Kodebase / type")` picks the
codebase source). -/
def map_task (task : TaskDict) (jira_priorities : List JiraPriority) :
    Except String TaskMappingResult :=
  let summary := stripS (orEmpty (dictGet task "Title"))
  if summary = "" then Except.error "Task missing Title"
  else
    let codebase_src :=
      match dictGet task "Labels" with
      | some v => if v ≠ "" then some v else dictGet task "Kodebase / type"
      | none => dictGet task "Kodebase / type"
    Except.ok
      { summary := summary
        description := stripS (orEmpty (dictGet task "Description"))
        labels := merge_labels [parse_tags (dictGet task "Tags"), parse_tags codebase_src]
        priority_id := map_priority (dictGet task "Prioritet") jira_priorities
        original_estimate := parse_estimate_to_jira (dictGet task "Estimater")
        target_status_id := map_status_id (dictGet task "Status")
        comments := map_comments (dictGet task "Comments") }

/-- Success/failure of each remote write for one record: the mocked
destination API. -/
structure JiraEnv where
  createOk : Bool
  setFieldsOk : Bool
  moveOk : Bool
  transitionOk : Bool
  addCommentOk : Bool

/-- The observable steps of the per-record write sequence. -/
inductive MStep : Type where
  | created
  | customFieldsSet
  | customFieldsWarn
  | movedToBoard
  | transitioned
  | transitionWarn
  | addedComment (body : String)
deriving DecidableEq

/-- The loop body of `migrate_tasks` for one record (with `dry_run=False`):
returns the steps that executed and the exception, if one propagated.
`create_issue` failure aborts with nothing created; the custom-field
update is wrapped in try/except (warning only); `move_issue_to_board` is
*not* wrapped, so its failure propagates; the transition is wrapped
(warning only); `add_comment` failures propagate. -/
def migrate_one (env : JiraEnv) (task : TaskDict)
    (jira_priorities : List JiraPriority) : List MStep × Option String :=
  match map_task task jira_priorities with
  | Except.error e => ([], some e)
  | Except.ok mapped =>
    if !env.createOk then ([], some "Create issue failed")
    else
      let steps2 := [MStep.created] ++
        (if env.setFieldsOk then [MStep.customFieldsSet] else [MStep.customFieldsWarn])
      if !env.moveOk then (steps2, some "Move-to-board failed")
      else
        let steps3 := steps2 ++ [MStep.movedToBoard]
        let steps4 := steps3 ++
          (match mapped.target_status_id with
           | some sid =>
             if sid ≠ STATUS_ID_BACKLOG then
               (if env.transitionOk then [MStep.transitioned] else [MStep.transitionWarn])
             else []
           | none => [])
        if mapped.comments ≠ [] ∧ !env.addCommentOk then
          (steps4, some "Add comment failed")
        else
          let steps5 := steps4 ++ mapped.comments.map MStep.addedComment
          let meta_lines :=
            (if optTruthy (dictGet task "Ferdigstilt") then
              ["Original Ferdigstilt: " ++ orEmpty (dictGet task "Ferdigstilt")]
             else []) ++
            (if optTruthy (dictGet task "Arkiveringsdato") then
              ["Original Arkiveringsdato: " ++ orEmpty (dictGet task "Arkiveringsdato")]
             else [])
          if meta_lines ≠ [] then
            if env.addCommentOk then
              (steps5 ++ [MStep.addedComment
                ("Migration metadata:\n" ++ String.intercalate "\n" meta_lines)], none)
            else (steps5, some "Add comment failed")
          else (steps5, none)

end NotionJira

namespace NotionJira

example : migrate_one ⟨true, true, true, true, true⟩
    [("Title", "T"), ("Status", "Done"), ("Comments", "hi")] [] =
  ([MStep.created, MStep.customFieldsSet, MStep.movedToBoard, MStep.transitioned,
    MStep.addedComment "hi"], none) := by decide

/-- C7 counterexample: With the move-to-board call failing (every
other call succeeding) on a record with a mapped non-backlog status and
one comment, the record's processing stops with a propagated error right
after the custom-field step: no transition fires and no comment is
created — while the same record with the move succeeding does transition
and comment. -/
theorem C7_move_to_board_counterexample :
    migrate_one ⟨true, true, false, true, true⟩
        [("Title", "T"), ("Status", "Done"), ("Comments", "hi")] [] =
      ([MStep.created, MStep.customFieldsSet], some "Move-to-board failed")
    ∧ MStep.transitioned ∉ (migrate_one ⟨true, true, false, true, true⟩
        [("Title", "T"), ("Status", "Done"), ("Comments", "hi")] []).1
    ∧ MStep.addedComment "hi" ∉ (migrate_one ⟨true, true, false, true, true⟩
        [("Title", "T"), ("Status", "Done"), ("Comments", "hi")] []).1
    ∧ migrate_one ⟨true, true, true, true, true⟩
        [("Title", "T"), ("Status", "Done"), ("Comments", "hi")] [] =
      ([MStep.created, MStep.customFieldsSet, MStep.movedToBoard, MStep.transitioned,
        MStep.addedComment "hi"], none) :=
  ⟨by decide, by decide, by decide, by decide⟩

/-- C7 amended: A failure of the move-to-board step is *fatal for
the record*: the exception propagates (steps 5–7 are skipped — no
transition, no comments), and only the already-created issue with its
custom-field attempt is left in place. -/
theorem C7_move_to_board_amended (env : JiraEnv) (task : TaskDict)
    (prios : List JiraPriority) (mapped : TaskMappingResult)
    (hm : map_task task prios = Except.ok mapped)
    (hc : env.createOk = true) (hmv : env.moveOk = false) :
    migrate_one env task prios =
      (MStep.created ::
        (if env.setFieldsOk then [MStep.customFieldsSet] else [MStep.customFieldsWarn]),
       some "Move-to-board failed")
    ∧ MStep.transitioned ∉ (migrate_one env task prios).1
    ∧ MStep.movedToBoard ∉ (migrate_one env task prios).1
    ∧ ∀ b, MStep.addedComment b ∉ (migrate_one env task prios).1 := by
  have h1 : migrate_one env task prios =
      (MStep.created ::
        (if env.setFieldsOk then [MStep.customFieldsSet] else [MStep.customFieldsWarn]),
       some "Move-to-board failed") := by
    rw [migrate_one, hm]
    simp [hc, hmv]
  refine ⟨h1, ?_, ?_, ?_⟩
  · rw [h1]; cases env.setFieldsOk <;> simp
  · rw [h1]; cases env.setFieldsOk <;> simp
  · intro b; rw [h1]; cases env.setFieldsOk <;> simp

/-- Witness for C7 amended at the concrete failing environment. -/
theorem C7_move_to_board_amended_witness :
    migrate_one ⟨true, true, false, true, true⟩
        [("Title", "T"), ("Status", "Done"), ("Comments", "hi")] [] =
      ([MStep.created, MStep.customFieldsSet], some "Move-to-board failed") := by
  have h := (C7_move_to_board_amended ⟨true, true, false, true, true⟩
    [("Title", "T"), ("Status", "Done"), ("Comments", "hi")] []
    ⟨"T", "", [], none, none, some "13382", ["hi"]⟩ rfl rfl rfl).1
  simpa using h

end NotionJira
